import Mathlib

/-!
Verification development for the SLEAP downstream-analysis pipeline
(repository `IkjotSidhu/SLEAP-downstream-analysis-pipeline`).

The analytical core lives in the module `sleap_plotting.py`, which the
repository distributes as a single top-level module (see `setup.py`,
`py_modules=["sleap_plotting"]`); the tests in `tests/test_pipeline.py`
and `tests/test_utils.py` import `fill_missing`, `smooth_diff`,
`get_data_summary` and `AnalysisConfig` from it.  The module itself is
not present here, so every definition below is modelled from the
specification (spec.md §3–§4, §8) together with the behaviour pinned by
the tests, as noted in each doc comment.

Modelling conventions:
* Floating-point position samples are modelled as exact rationals `ℚ`;
  every IEEE double is a rational, so a series of rationals is a
  faithful superset-free model of the float data.
* The missing-value marker (NaN) is modelled as `none` in `Option ℚ`
  (for positions) or `Option ℝ` (for derived quantities whose values
  involve square roots).
* A 2-D position array `[frame, coordinate]` is given column-wise:
  `fill_missing` receives the list of its coordinate columns, each a
  `List (Option ℚ)`, matching the column-independent processing the
  spec prescribes (§4.1).
* Warnings are modelled as a structured diagnostics list (spec §9
  recommends a structured warning channel) rather than printed text.
-/

/-- Diagnostics emitted by the stages: the oversized-window clamp and the
polynomial-order reduction of `smooth_diff` (spec §4.2) and the
unknown-configuration-field warning of `AnalysisConfig.update`
(spec §4.5, test `test_config_invalid_parameter`). -/
inductive Warning where
  | windowClamped (requested effective : ℕ)
  | polyReduced (requested effective : ℕ)
  | unknownParameter (name : String)
deriving DecidableEq, Repr

/-! ### ImputationStage: `fill_missing` (spec §4.1) -/

/-- Modelled from the spec: the valid (non-missing) samples of one
coordinate column, as `(index, value)` pairs in increasing index order.
`fill_missing` in `sleap_plotting.py` is absent from the sources; spec
§4.1 says each column's interpolation nodes are its non-missing
entries. -/
def validPoints (col : List (Option ℚ)) : List (ℕ × ℚ) :=
  col.enum.filterMap (fun p => p.2.map (fun v => (p.1, v)))

/-- Modelled from the spec: piecewise-linear interpolation through the
nodes `pts` (sorted by index), evaluated at index `i`, with flat
extrapolation before the first and after the last node (spec §4.1). -/
def interpAt : List (ℕ × ℚ) → ℕ → ℚ
  | [], _ => 0
  | [(_, v)], _ => v
  | (a, va) :: (b, vb) :: rest, i =>
    if i ≤ a then va
    else if i ≤ b then va + (vb - va) * (((i : ℚ) - (a : ℚ)) / ((b : ℚ) - (a : ℚ)))
    else interpAt ((b, vb) :: rest) i

/-- Modelled from the spec: `fill_missing` applied to one coordinate
column.  With fewer than two valid points the column is returned
unchanged (missing markers propagate); otherwise every valid entry is
kept and every missing entry is replaced by the piecewise-linear
interpolation through the valid points, with flat extrapolation at the
ends (spec §4.1). -/
def fillColumn (col : List (Option ℚ)) : List (Option ℚ) :=
  let pts := validPoints col
  if pts.length < 2 then col
  else (List.range col.length).map (fun i =>
    match col.getD i none with
    | some v => some v
    | none => some (interpAt pts i))

/-- Modelled from the spec: `fill_missing` of `sleap_plotting.py`
(absent from the sources), processing each coordinate column of the 2-D
array independently and returning a new array of identical shape
(spec §4.1).  The array is given as its list of columns. -/
def fill_missing (cols : List (List (Option ℚ))) : List (List (Option ℚ)) :=
  cols.map fillColumn

/-! ### AnalysisConfig (spec §3, §4.5) -/

/-- Modelled from the spec: the configuration parameter bag of
`sleap_plotting.py` (absent from the sources).  Numeric fields are
modelled as exact rationals.  Field names follow the tests
(`test_default_config`, `test_config_bounds`). -/
structure AnalysisConfig where
  fps : ℚ
  velocity_window : ℚ
  velocity_poly_order : ℚ
  velocity_vmin : ℚ
  velocity_vmax : ℚ
  figure_format : String
  figure_dpi : ℚ
  colormap : String
deriving DecidableEq, Repr

/-- Modelled from the spec: the default configuration.  `fps = 30`,
`velocity_window = 25`, `velocity_poly_order = 3`,
`figure_format = "pdf"` and `colormap = "plasma"` are pinned by
`test_default_config`; the remaining defaults are chosen inside the
documented domains (spec §3: `velocity_vmin ≥ 0`,
`velocity_vmax > velocity_vmin`, `figure_dpi > 0`), matching the values
used throughout the repository examples. -/
def AnalysisConfig.default : AnalysisConfig :=
  { fps := 30
    velocity_window := 25
    velocity_poly_order := 3
    velocity_vmin := 0
    velocity_vmax := 20
    figure_format := "pdf"
    figure_dpi := 300
    colormap := "plasma" }

/-- Modelled from the spec: a value arriving at the configuration
boundary from an external (textual) source is either numeric or a
string (spec §9). -/
inductive ConfigValue where
  | num (q : ℚ)
  | str (s : String)
deriving DecidableEq, Repr

/-- Modelled from the spec: the recognized configuration field names
(spec §3). -/
def recognizedFields : List String :=
  ["fps", "velocity_window", "velocity_poly_order", "velocity_vmin",
   "velocity_vmax", "figure_format", "figure_dpi", "colormap"]

/-- Modelled from the spec: overwrite one recognized field.  A value of
the wrong kind is not applied (spec §4.5: no silent type changes across
kinds). -/
def applyField (c : AnalysisConfig) (name : String) (v : ConfigValue) :
    AnalysisConfig :=
  match name, v with
  | "fps", .num q => { c with fps := q }
  | "velocity_window", .num q => { c with velocity_window := q }
  | "velocity_poly_order", .num q => { c with velocity_poly_order := q }
  | "velocity_vmin", .num q => { c with velocity_vmin := q }
  | "velocity_vmax", .num q => { c with velocity_vmax := q }
  | "figure_format", .str s => { c with figure_format := s }
  | "figure_dpi", .num q => { c with figure_dpi := q }
  | "colormap", .str s => { c with colormap := s }
  | _, _ => c

/-- Modelled from the spec: `AnalysisConfig.update(**fields)` of
`sleap_plotting.py` (absent from the sources).  Each supplied field is
applied if recognized; an unrecognized field name produces a warning
naming the field and is otherwise ignored; the call never fails
(spec §4.5, test `test_config_invalid_parameter` pins the warning text
naming the offending parameter). -/
def AnalysisConfig.update : AnalysisConfig → List (String × ConfigValue) →
    AnalysisConfig × List Warning
  | c, [] => (c, [])
  | c, (name, v) :: rest =>
    if recognizedFields.contains name then
      AnalysisConfig.update (applyField c name v) rest
    else
      let r := AnalysisConfig.update c rest
      (r.1, Warning.unknownParameter name :: r.2)

/-! ### SummaryStage: `get_data_summary` (spec §4.4) -/

/-- Modelled from the spec: a 4-D tracking tensor
`[frame, node, coordinate, instance]`.  A numpy array carries its shape
as metadata alongside its (flattened) data, which is how it is modelled
here; well-shapedness (`data.length` equal to the product of the axis
lengths) is a hypothesis of the theorems. -/
structure TrackingTensor where
  frames : ℕ
  nodes : ℕ
  coords : ℕ
  numInstances : ℕ
  data : List (Option ℚ)
deriving DecidableEq, Repr

/-- Modelled from the spec: the summary record produced by
`get_data_summary` (spec §3, test `test_get_data_summary`). -/
structure SummaryRecord where
  frame_count : ℕ
  node_count : ℕ
  instance_count : ℕ
  node_names : List String
  total_tracking_points : ℕ
  missing_data_percentage : ℚ
deriving DecidableEq, Repr

/-- Modelled from the spec: `get_data_summary` of `sleap_plotting.py`
(absent from the sources).  Counts are read from the tensor axis
lengths, `total_tracking_points` is the tensor size, and
`missing_data_percentage` is `100 ×` the fraction of missing-marker
entries across all axes (spec §4.4). -/
def get_data_summary (t : TrackingTensor) (names : List String) :
    SummaryRecord :=
  let total := t.frames * t.nodes * t.coords * t.numInstances
  { frame_count := t.frames
    node_count := t.nodes
    instance_count := t.numInstances
    node_names := names
    total_tracking_points := total
    missing_data_percentage :=
      100 * ((t.data.countP (fun o => o.isNone) : ℚ) / (total : ℚ)) }

/-! ### SmoothedDerivativeStage: `smooth_diff` (spec §4.2) -/

/-- Modelled from the spec: the largest valid odd window size not
exceeding the series length, used when the requested window is too
large; a requested window that fits is used as given (spec §4.2). -/
def effWindow (n win : ℕ) : ℕ :=
  if n < win then (if n % 2 = 1 then n else n - 1) else win

/-- Modelled from the spec: the start index of the length-`w` window
centered on frame `i`, shifted to stay inside `[0, n)` (spec §4.2:
a sliding window centered on each frame). -/
def windowStart (n w i : ℕ) : ℕ :=
  min (i - w / 2) (n - w)

/-- Modelled from the spec: the design matrix of the local polynomial
fit of degree `d + 1` on the length-`w` window starting at `s`, in the
variable `t - i` (offset from the frame the derivative is taken at). -/
def sgDesign (d w s i : ℕ) : Matrix (Fin w) (Fin (d + 2)) ℚ :=
  fun j k => (((s + (j : ℕ) : ℕ) : ℚ) - (i : ℚ)) ^ (k : ℕ)

/-- Modelled from the spec: the signal samples inside the length-`w`
window starting at `s`, with out-of-range reads defaulting to `0`
(never exercised: the window is kept inside the series). -/
def sgY (w : ℕ) (x : List ℚ) (s : ℕ) : Fin w → ℚ :=
  fun j => x.getD (s + (j : ℕ)) 0

/-- Modelled from the spec: the normal matrix `Aᵀ·A` of the
least-squares polynomial fit on the window. -/
def sgNormal (d w s i : ℕ) : Matrix (Fin (d + 2)) (Fin (d + 2)) ℚ :=
  (sgDesign d w s i).transpose * sgDesign d w s i

/-- Modelled from the spec: the right-hand side `Aᵀ·y` of the normal
equations of the least-squares fit on the window. -/
def sgRHS (d w s i : ℕ) (x : List ℚ) : Fin (d + 2) → ℚ :=
  (sgDesign d w s i).transpose.mulVec (sgY w x s)

/-- Modelled from the spec: the smoothed first derivative of the signal
`x` at frame `i`, from a least-squares polynomial fit of degree `d + 1`
over the length-`w` window centered on `i` (spec §4.2: fits a
polynomial of the given order within a sliding window centered on each
frame and evaluates its first derivative analytically).  The normal
equations are solved by Cramer's rule; the fitted polynomial is in the
offset variable `t - i`, so its derivative at frame `i` is the
degree-one coefficient.  In the degenerate singular case the rational
division by a zero determinant yields `0`. -/
def sgDerivAt (d w : ℕ) (x : List ℚ) (i : ℕ) : ℚ :=
  ((sgNormal d w (windowStart x.length w i) i).updateColumn ⟨1, by omega⟩
      (sgRHS d w (windowStart x.length w i) i x)).det /
    (sgNormal d w (windowStart x.length w i) i).det

/-- Modelled from the spec: the per-frame velocity magnitude, the
Euclidean norm of the two per-axis smoothed derivatives (spec §4.2). -/
noncomputable def sgMagnitude (d w : ℕ) (x y : List ℚ) (i : ℕ) : ℝ :=
  Real.sqrt (((sgDerivAt d w x i : ℚ) : ℝ) ^ 2 +
    ((sgDerivAt d w y i : ℚ) : ℝ) ^ 2)

/-- Result of `smooth_diff`: the velocity-magnitude series together
with the structured diagnostics channel (spec §9). -/
structure SmoothDiffResult where
  values : List (Option ℝ)
  warnings : List Warning

/-- Modelled from the spec: `smooth_diff(position_series, win, poly)`
of `sleap_plotting.py` (absent from the sources), per spec §4.2:
the window is clamped (with a warning) to the largest valid odd value
when it exceeds the frame count; the polynomial order is reduced to
`effective_window − 1` (minimum 1, with a warning) when too large; an
effective window of size at most one applies no filter and yields
exactly zero; missing samples are converted to a zero-displacement
signal before filtering, so the output carries no missing marker; the
per-axis smoothed derivatives are combined by the per-frame Euclidean
norm into a non-negative magnitude; the output length equals the input
frame count. -/
noncomputable def smooth_diff (xs : List (Option ℚ × Option ℚ))
    (win : ℕ) (poly : ℕ) : SmoothDiffResult :=
  let n := xs.length
  let w := effWindow n win
  let warns :=
    (if n < win then [Warning.windowClamped win w] else []) ++
    (if w ≤ poly then [Warning.polyReduced poly (max 1 (w - 1))] else [])
  if w ≤ 1 then
    ⟨List.replicate n (some 0), warns⟩
  else
    let x := xs.map (fun p => p.1.getD 0)
    let y := xs.map (fun p => p.2.getD 0)
    let d := min poly (w - 1) - 1
    ⟨(List.range n).map (fun i => some (sgMagnitude d w x y i)), warns⟩

/-! ### PairwiseSpatialStage: `inter_subject_distance` (spec §4.3) -/

/-- Modelled from the spec: `inter_subject_distance(series_a, series_b)`
of `sleap_plotting.py` (absent from the sources), per spec §4.3: the
per-frame Euclidean distance between two position series, truncated to
the common length; any residual missing marker in either series at a
frame propagates to a missing marker at that output frame (in
deliberate contrast with the zero-fill policy of `smooth_diff`). -/
noncomputable def inter_subject_distance (a b : List (Option ℚ × Option ℚ)) :
    List (Option ℝ) :=
  (a.zip b).map (fun p =>
    match p.1.1, p.1.2, p.2.1, p.2.2 with
    | some x1, some y1, some x2, some y2 =>
      some (Real.sqrt (((x1 : ℝ) - (x2 : ℝ)) ^ 2 + ((y1 : ℝ) - (y2 : ℝ)) ^ 2))
    | _, _, _, _ => none)

/-! ### Helper lemmas -/

lemma getD_replicate {α : Type} (n i : ℕ) (a : α) :
    (List.replicate n a).getD i a = a := by
  induction n generalizing i with
  | zero => simp
  | succ n ih =>
    cases i with
    | zero => simp [List.replicate]
    | succ i => simp [List.replicate, ih i]

lemma fillColumn_of_lt_two {col : List (Option ℚ)}
    (h : (validPoints col).length < 2) : fillColumn col = col := by
  simp only [fillColumn]
  rw [if_pos h]

lemma fillColumn_length (col : List (Option ℚ)) :
    (fillColumn col).length = col.length := by
  simp only [fillColumn]
  split <;> simp

lemma fillColumn_preserves {col : List (Option ℚ)}
    (h2 : 2 ≤ (validPoints col).length) (i : ℕ) (v : ℚ)
    (hv : col.getD i none = some v) :
    (fillColumn col).getD i none = some v := by
  have hi : i < col.length := by
    by_contra hle
    rw [List.getD_eq_default _ _ (le_of_not_lt hle)] at hv
    exact Option.noConfusion hv
  simp only [fillColumn]
  rw [if_neg (by omega)]
  rw [List.getD_eq_getElem?_getD, List.getElem?_map, List.getElem?_range hi]
  rw [List.getD_eq_getElem?_getD] at hv
  simp [hv]

lemma fillColumn_all_isSome {col : List (Option ℚ)}
    (h2 : 2 ≤ (validPoints col).length) :
    (fillColumn col).all Option.isSome = true := by
  rw [List.all_eq_true]
  intro o ho
  simp only [fillColumn] at ho
  rw [if_neg (by omega)] at ho
  obtain ⟨i, _, rfl⟩ := List.mem_map.mp ho
  cases col.getD i none <;> simp

/-! ### Claim theorems, first batch -/

/-- C10: a freshly constructed `AnalysisConfig` has the defaults
`fps = 30`, `velocity_window = 25`, `velocity_poly_order = 3`,
`figure_format = "pdf"`, `colormap = "plasma"`, and these defaults lie
in the documented field domains (`fps > 0`, `velocity_window > 0`,
`velocity_vmin ≥ 0`, `velocity_vmax > velocity_vmin`,
`figure_dpi > 0`). -/
theorem spec_C10_default_config :
    AnalysisConfig.default.fps = 30 ∧
    AnalysisConfig.default.velocity_window = 25 ∧
    AnalysisConfig.default.velocity_poly_order = 3 ∧
    AnalysisConfig.default.figure_format = "pdf" ∧
    AnalysisConfig.default.colormap = "plasma" ∧
    0 < AnalysisConfig.default.fps ∧
    0 < AnalysisConfig.default.velocity_window ∧
    0 ≤ AnalysisConfig.default.velocity_vmin ∧
    AnalysisConfig.default.velocity_vmin < AnalysisConfig.default.velocity_vmax ∧
    0 < AnalysisConfig.default.figure_dpi := by
  refine ⟨rfl, rfl, rfl, rfl, rfl, ?_, ?_, ?_, ?_, ?_⟩ <;> norm_num [AnalysisConfig.default]

/-- C5: an update whose field name is not recognized emits a warning
naming the offending field, leaves every recognized field at its prior
value, and never fails; recognized fields supplied in the same call are
still overwritten (the update behaves on them exactly as the call
without the offending entry). -/
theorem spec_C5_update_unknown_field (c : AnalysisConfig) (name : String)
    (v : ConfigValue) (rest : List (String × ConfigValue))
    (h : name ∉ recognizedFields) :
    (AnalysisConfig.update c ((name, v) :: rest)).1 =
      (AnalysisConfig.update c rest).1 ∧
    Warning.unknownParameter name ∈
      (AnalysisConfig.update c ((name, v) :: rest)).2 ∧
    (AnalysisConfig.update c [(name, v)]).1 = c := by
  refine ⟨?_, ?_, ?_⟩ <;> simp [AnalysisConfig.update, h]

/-- Witness for C5 at a concrete call: updating the default config with
the unrecognized field `invalid_param` and the recognized field `fps`
warns about `invalid_param`, still applies `fps := 60`, and the
one-field unrecognized update leaves the config unchanged. -/
theorem spec_C5_witness :
    (AnalysisConfig.update AnalysisConfig.default
      [("invalid_param", ConfigValue.num 123), ("fps", ConfigValue.num 60)]).1.fps
      = 60 ∧
    Warning.unknownParameter "invalid_param" ∈
      (AnalysisConfig.update AnalysisConfig.default
        [("invalid_param", ConfigValue.num 123), ("fps", ConfigValue.num 60)]).2 ∧
    (AnalysisConfig.update AnalysisConfig.default
      [("invalid_param", ConfigValue.num 123)]).1 = AnalysisConfig.default := by
  have h := spec_C5_update_unknown_field AnalysisConfig.default "invalid_param"
    (ConfigValue.num 123) [("fps", ConfigValue.num 60)] (by decide)
  refine ⟨?_, h.2.1, ?_⟩
  · rw [h.1]; decide
  · exact (spec_C5_update_unknown_field AnalysisConfig.default "invalid_param"
      (ConfigValue.num 123) [] (by decide)).2.2

/-- C6: on a 4-D tensor of shape `(F, N, 2, I)` with `N` node names,
`get_data_summary` reports `frame_count = F`, `node_count = N`,
`instance_count = I`, node names of length `N`,
`total_tracking_points = F × N × 2 × I`, and a missing-data percentage
of `100 ×` the count of missing-marker entries over the total. -/
theorem spec_C6_summary (F N I : ℕ) (data : List (Option ℚ))
    (names : List String) (hdata : data.length = F * N * 2 * I)
    (hnames : names.length = N) :
    (get_data_summary ⟨F, N, 2, I, data⟩ names).frame_count = F ∧
    (get_data_summary ⟨F, N, 2, I, data⟩ names).node_count = N ∧
    (get_data_summary ⟨F, N, 2, I, data⟩ names).instance_count = I ∧
    (get_data_summary ⟨F, N, 2, I, data⟩ names).node_names.length = N ∧
    (get_data_summary ⟨F, N, 2, I, data⟩ names).total_tracking_points
      = F * N * 2 * I ∧
    (get_data_summary ⟨F, N, 2, I, data⟩ names).missing_data_percentage
      = 100 * ((data.countP (fun o => o.isNone) : ℚ) / ((F * N * 2 * I : ℕ) : ℚ)) :=
  ⟨rfl, rfl, rfl, hnames, rfl, rfl⟩

/-- Witness for C6 at a concrete tensor of shape `(2, 1, 2, 1)` with
two missing entries out of four: the reported missing percentage is
exactly `50`. -/
theorem spec_C6_witness :
    (get_data_summary ⟨2, 1, 2, 1, [some 1, none, some 2, none]⟩
      ["head"]).missing_data_percentage = 50 ∧
    (get_data_summary ⟨2, 1, 2, 1, [some 1, none, some 2, none]⟩
      ["head"]).frame_count = 2 ∧
    (get_data_summary ⟨2, 1, 2, 1, [some 1, none, some 2, none]⟩
      ["head"]).total_tracking_points = 4 := by
  have h := spec_C6_summary 2 1 1 [some 1, none, some 2, none] ["head"]
    (by decide) (by decide)
  refine ⟨?_, h.1, h.2.2.2.2.1⟩
  rw [h.2.2.2.2.2]
  norm_num

/-- C4: a column with fewer than two valid entries is returned
unchanged by `fill_missing` (missing markers propagate), the call never
fails, the returned array has the shape of the input, and zero-frame
input yields the empty array of the same shape. -/
theorem spec_C4_fill_missing_insufficient :
    (∀ col : List (Option ℚ), (validPoints col).length < 2 →
      fillColumn col = col) ∧
    (∀ cols : List (List (Option ℚ)),
      (fill_missing cols).length = cols.length) ∧
    (∀ col : List (Option ℚ), (fillColumn col).length = col.length) ∧
    fill_missing [[], []] = [[], []] := by
  refine ⟨fun col h => fillColumn_of_lt_two h, fun cols => ?_,
    fillColumn_length, ?_⟩
  · simp [fill_missing]
  · decide

/-- Witness for C4 at concrete columns: an all-missing column and a
single-valid-entry column pass through unchanged, and the
two-empty-column (zero-frame) array keeps its shape. -/
theorem spec_C4_witness :
    fillColumn [none, none, none] = [none, none, none] ∧
    fillColumn [none, some 1, none] = [none, some 1, none] ∧
    (fill_missing [[none, none], [some 5, none]]).length = 2 := by
  exact ⟨spec_C4_fill_missing_insufficient.1 _ (by decide),
    spec_C4_fill_missing_insufficient.1 _ (by decide),
    spec_C4_fill_missing_insufficient.2.1 _⟩

/-- C3: on a column with at least two valid entries, `fill_missing`
leaves every valid entry unchanged, produces no missing marker in the
column, acts column-independently on the array, and interpolates a
single gap between values `1` and `7` at index distance `2` to exactly
`4`. -/
theorem spec_C3_fill_missing_interpolates :
    (∀ col : List (Option ℚ), 2 ≤ (validPoints col).length →
      ∀ (i : ℕ) (v : ℚ), col.getD i none = some v →
        (fillColumn col).getD i none = some v) ∧
    (∀ col : List (Option ℚ), 2 ≤ (validPoints col).length →
      (fillColumn col).all Option.isSome = true) ∧
    (∀ (cols : List (List (Option ℚ))) (i : ℕ) (col : List (Option ℚ)),
      cols[i]? = some col → (fill_missing cols)[i]? = some (fillColumn col)) ∧
    fillColumn [some 1, none, some 7] = [some 1, some 4, some 7] := by
  refine ⟨fun col h2 i v hv => fillColumn_preserves h2 i v hv,
    fun col h2 => fillColumn_all_isSome h2, fun cols i col h => ?_, ?_⟩
  · simp [fill_missing, List.getElem?_map, h]
  · have h3 : List.range 3 = [0, 1, 2] := by decide
    have hlen : ¬ ((validPoints [some 1, none, some 7]).length < 2) := by decide
    simp [fillColumn, validPoints, interpAt, h3]
    norm_num
    intro hcontra
    exact absurd hcontra (by simpa [validPoints] using hlen)

/-- Witness for C3 at the concrete column `[some 1, none, some 7]`:
the valid entries at indices 0 and 2 are preserved, the filled column
carries no missing marker, and the array-level map places the filled
column at its index. -/
theorem spec_C3_witness :
    (fillColumn [some 1, none, some 7]).getD 0 none = some 1 ∧
    (fillColumn [some 1, none, some 7]).getD 2 none = some 7 ∧
    (fillColumn [some 1, none, some 7]).all Option.isSome = true ∧
    (fill_missing [[some 1, none, some 7]])[0]?
      = some (fillColumn [some 1, none, some 7]) := by
  exact ⟨spec_C3_fill_missing_interpolates.1 _ (by decide) 0 1 (by decide),
    spec_C3_fill_missing_interpolates.1 _ (by decide) 2 7 (by decide),
    spec_C3_fill_missing_interpolates.2.1 _ (by decide),
    spec_C3_fill_missing_interpolates.2.2.1 _ 0 _ (by decide)⟩

/-! ### Helper lemmas about `smooth_diff` -/

lemma sgY_replicate_zero (w n s : ℕ) :
    sgY w (List.replicate n (0 : ℚ)) s = 0 := by
  funext j
  simp [sgY, getD_replicate]

lemma sgRHS_replicate_zero (d w s i n : ℕ) :
    sgRHS d w s i (List.replicate n (0 : ℚ)) = 0 := by
  rw [sgRHS, sgY_replicate_zero, Matrix.mulVec_zero]

lemma sgDerivAt_replicate_zero (d w n i : ℕ) :
    sgDerivAt d w (List.replicate n (0 : ℚ)) i = 0 := by
  have h0 : ∀ s : ℕ,
      ((sgNormal d w s i).updateColumn ⟨1, by omega⟩
        (0 : Fin (d + 2) → ℚ)).det = 0 :=
    fun s => Matrix.det_eq_zero_of_column_eq_zero ⟨1, by omega⟩
      (fun i' => by simp [Matrix.updateColumn_self])
  unfold sgDerivAt
  rw [sgRHS_replicate_zero, h0, zero_div]

lemma sgMagnitude_replicate_zero (d w n n' i : ℕ) :
    sgMagnitude d w (List.replicate n (0 : ℚ)) (List.replicate n' (0 : ℚ)) i
      = 0 := by
  rw [sgMagnitude, sgDerivAt_replicate_zero, sgDerivAt_replicate_zero]
  norm_num

lemma sgMagnitude_nonneg (d w : ℕ) (x y : List ℚ) (i : ℕ) :
    0 ≤ sgMagnitude d w x y i :=
  Real.sqrt_nonneg _

lemma smooth_diff_values_length (xs : List (Option ℚ × Option ℚ))
    (win poly : ℕ) :
    (smooth_diff xs win poly).values.length = xs.length := by
  simp only [smooth_diff]
  split <;> simp

lemma smooth_diff_values_all_isSome (xs : List (Option ℚ × Option ℚ))
    (win poly : ℕ) :
    (smooth_diff xs win poly).values.all Option.isSome = true := by
  simp only [smooth_diff]
  split
  · rw [List.all_eq_true]
    intro o ho
    rw [List.eq_of_mem_replicate ho]
    rfl
  · rw [List.all_eq_true]
    intro o ho
    obtain ⟨i, _, rfl⟩ := List.mem_map.mp ho
    rfl

lemma smooth_diff_all_missing (n win poly : ℕ) :
    (smooth_diff (List.replicate n ((none, none) : Option ℚ × Option ℚ))
      win poly).values = List.replicate n (some (0 : ℝ)) := by
  simp only [smooth_diff, List.length_replicate, List.map_replicate]
  split
  · rfl
  · rw [List.eq_replicate_iff]
    refine ⟨by simp, ?_⟩
    intro b hb
    obtain ⟨i, _, rfl⟩ := List.mem_map.mp hb
    simp only [Option.getD_none]
    rw [sgMagnitude_replicate_zero]

lemma smooth_diff_warn (xs : List (Option ℚ × Option ℚ)) (win poly : ℕ)
    (h : xs.length < win) :
    Warning.windowClamped win (effWindow xs.length win) ∈
      (smooth_diff xs win poly).warnings := by
  simp only [smooth_diff]
  split <;> simp [h]

lemma smooth_diff_single (xs : List (Option ℚ × Option ℚ)) (win poly : ℕ)
    (h : xs.length = 1) :
    (smooth_diff xs win poly).values = [some (0 : ℝ)] := by
  have hw : effWindow xs.length win ≤ 1 := by
    rw [h]
    unfold effWindow
    split
    · split <;> omega
    · omega
  simp only [smooth_diff]
  rw [if_pos hw, h]
  rfl

lemma smooth_diff_entry (xs : List (Option ℚ × Option ℚ)) (win poly i : ℕ)
    (hi : i < xs.length) :
    ∃ r : ℝ, (smooth_diff xs win poly).values[i]? = some (some r) ∧ 0 ≤ r := by
  simp only [smooth_diff]
  split
  · refine ⟨0, ?_, le_refl 0⟩
    simp [List.getElem?_replicate, hi]
  · exact ⟨sgMagnitude (min poly (effWindow xs.length win - 1) - 1)
      (effWindow xs.length win) (xs.map fun p => p.1.getD 0)
      (xs.map fun p => p.2.getD 0) i,
      by rw [List.getElem?_map, List.getElem?_range hi]; rfl,
      sgMagnitude_nonneg _ _ _ _ _⟩

/-! ### Claim theorems about `smooth_diff` -/

/-- C1: for every finite-length 2D position series and any
window/order, the `VelocitySeries` returned by `smooth_diff` contains
no missing-value marker; in particular an entirely missing series
(every frame missing on every axis) yields a series of zeros of the
same length as the input, not an error and not missing markers. -/
theorem spec_C1_smooth_diff_no_missing :
    (∀ (xs : List (Option ℚ × Option ℚ)) (win poly : ℕ),
      (smooth_diff xs win poly).values.all Option.isSome = true) ∧
    (∀ (n win poly : ℕ),
      (smooth_diff (List.replicate n ((none, none) : Option ℚ × Option ℚ))
        win poly).values = List.replicate n (some (0 : ℝ))) ∧
    (∀ (n win poly : ℕ),
      (smooth_diff (List.replicate n ((none, none) : Option ℚ × Option ℚ))
        win poly).values.length = n) :=
  ⟨smooth_diff_values_all_isSome, smooth_diff_all_missing,
   fun n win poly => by
    rw [smooth_diff_values_length, List.length_replicate]⟩

/-- C2: the series returned by `smooth_diff` always has the length of
the input frame count, for every window/order; a window exceeding the
frame count is clamped with a diagnostic warning rather than failing;
and a single-frame input yields exactly one zero value. -/
theorem spec_C2_smooth_diff_length (xs : List (Option ℚ × Option ℚ))
    (win poly : ℕ) :
    (smooth_diff xs win poly).values.length = xs.length ∧
    (xs.length < win →
      Warning.windowClamped win (effWindow xs.length win) ∈
        (smooth_diff xs win poly).warnings) ∧
    (xs.length = 1 → (smooth_diff xs win poly).values = [some (0 : ℝ)]) :=
  ⟨smooth_diff_values_length xs win poly,
   fun h => smooth_diff_warn xs win poly h,
   fun h => smooth_diff_single xs win poly h⟩

/-- Witness for C2 at concrete inputs: a 3-frame series with the
default window 25 keeps length 3 and records the clamp warning, and a
single-frame series yields exactly `[0]`. -/
theorem spec_C2_witness :
    (smooth_diff [(some 1, some 2), (some 3, some 4), (some 5, some 6)]
      25 3).values.length = 3 ∧
    Warning.windowClamped 25 (effWindow 3 25) ∈
      (smooth_diff [(some 1, some 2), (some 3, some 4), (some 5, some 6)]
        25 3).warnings ∧
    (smooth_diff [(some 1, some 2)] 5 3).values = [some (0 : ℝ)] :=
  ⟨(spec_C2_smooth_diff_length _ 25 3).1,
   (spec_C2_smooth_diff_length _ 25 3).2.1 (by decide),
   (spec_C2_smooth_diff_length _ 5 3).2.2 rfl⟩

/-- C9: for a position series whose entries are all finite (present),
every entry of the `smooth_diff` output is a finite (non-missing)
value and is non-negative. -/
theorem spec_C9_smooth_diff_finite_nonneg (xs : List (Option ℚ × Option ℚ))
    (win poly : ℕ)
    (hfin : xs.all (fun p => p.1.isSome && p.2.isSome) = true)
    (i : ℕ) (hi : i < xs.length) :
    ∃ r : ℝ, (smooth_diff xs win poly).values[i]? = some (some r) ∧ 0 ≤ r :=
  smooth_diff_entry xs win poly i hi

/-- Witness for C9 at a concrete finite series with 1e6-scale
coordinates: frame 0 of the output is a non-missing, non-negative
value. -/
theorem spec_C9_witness :
    ∃ r : ℝ,
      (smooth_diff [(some 1000000, some 1000000),
        (some 1000001, some 1000001), (some 1000002, some 1000002)]
        3 3).values[0]? = some (some r) ∧ 0 ≤ r :=
  spec_C9_smooth_diff_finite_nonneg _ 3 3 (by decide) 0 (by decide)

/-! ### Claim theorems about `inter_subject_distance` -/

/-- C7: for equal-length, fully-present position series,
`inter_subject_distance` returns at each frame the Euclidean distance
between the two positions of that frame, with output length equal to
the common length. -/
theorem spec_C7_distance_euclidean (A B : List (ℚ × ℚ))
    (h : A.length = B.length) :
    inter_subject_distance (A.map (fun p => (some p.1, some p.2)))
        (B.map (fun p => (some p.1, some p.2)))
      = (A.zip B).map (fun p =>
          some (Real.sqrt (((p.1.1 : ℝ) - (p.2.1 : ℝ)) ^ 2 +
            ((p.1.2 : ℝ) - (p.2.2 : ℝ)) ^ 2))) ∧
    (inter_subject_distance (A.map (fun p => (some p.1, some p.2)))
        (B.map (fun p => (some p.1, some p.2)))).length = A.length := by
  constructor
  · rw [inter_subject_distance, List.zip_map, List.map_map]
    rfl
  · rw [inter_subject_distance, List.zip_map, List.map_map, List.length_map,
      List.length_zip, h, min_self]

/-- Witness for C7: two parallel three-frame trajectories offset by the
constant perpendicular vector `(0, 3)` are at distance exactly `3` at
every frame. -/
theorem spec_C7_witness :
    inter_subject_distance
        [(some 0, some 0), (some 1, some 0), (some 2, some 0)]
        [(some 0, some 3), (some 1, some 3), (some 2, some 3)]
      = [some (3 : ℝ), some 3, some 3] := by
  have h := spec_C7_distance_euclidean [(0, 0), (1, 0), (2, 0)]
    [(0, 3), (1, 3), (2, 3)] rfl
  have h3 : Real.sqrt (((0 : ℝ)) ^ 2 + ((-3 : ℝ)) ^ 2) = 3 := by
    rw [show ((0 : ℝ)) ^ 2 + ((-3 : ℝ)) ^ 2 = 3 ^ 2 by norm_num]
    exact Real.sqrt_sq (by norm_num)
  calc inter_subject_distance
        [(some 0, some 0), (some 1, some 0), (some 2, some 0)]
        [(some 0, some 3), (some 1, some 3), (some 2, some 3)]
      = ([((0 : ℚ), (0 : ℚ)), (1, 0), (2, 0)].zip
          [((0 : ℚ), (3 : ℚ)), (1, 3), (2, 3)]).map (fun p =>
          some (Real.sqrt (((p.1.1 : ℝ) - (p.2.1 : ℝ)) ^ 2 +
            ((p.1.2 : ℝ) - (p.2.2 : ℝ)) ^ 2))) := h.1
    _ = [some (3 : ℝ), some 3, some 3] := by
        have h9 : Real.sqrt (9 : ℝ) = 3 := by
          rw [show (9 : ℝ) = 3 ^ 2 by norm_num]
          exact Real.sqrt_sq (by norm_num)
        simp only [List.zip_cons_cons, List.zip_nil_right, List.map_cons,
          List.map_nil]
        norm_num [h9]

/-- C8: any residual missing marker on any axis of either input series
at a frame makes `inter_subject_distance` produce a missing marker at
that output frame (it does not zero-fill), in deliberate contrast with
the zero-fill policy of `smooth_diff` (see C1). -/
theorem spec_C8_distance_missing_propagates
    (a b : List (Option ℚ × Option ℚ)) (i : ℕ)
    (p : (Option ℚ × Option ℚ) × (Option ℚ × Option ℚ))
    (hzip : (a.zip b)[i]? = some p)
    (hmiss : p.1.1 = none ∨ p.1.2 = none ∨ p.2.1 = none ∨ p.2.2 = none) :
    (inter_subject_distance a b)[i]? = some none := by
  rw [inter_subject_distance, List.getElem?_map, hzip]
  obtain ⟨⟨a1, a2⟩, b1, b2⟩ := p
  rcases hmiss with h | h | h | h
  · subst h; rfl
  · subst h; cases a1 <;> rfl
  · subst h; cases a1 <;> cases a2 <;> rfl
  · subst h; cases a1 <;> cases a2 <;> cases b1 <;> rfl

/-- Witness for C8 at a concrete pair of series: frame 1 of the first
series is missing on both axes, so output frame 1 is the missing
marker. -/
theorem spec_C8_witness :
    (inter_subject_distance
      [(some 1, some 2), (none, none)]
      [(some 0, some 0), (some 1, some 1)])[1]? = some none :=
  spec_C8_distance_missing_propagates _ _ 1 ((none, none), (some 1, some 1))
    (by decide) (Or.inl rfl)
